import Mathlib

/-!
Shallow embedding of the live-cloning bot core
(`src/bot_source/live-cloning/live_cloner.py`): the config record, the
event gates (`check_status`, `forbid_non_sudo_commands`), the message
transformer, the forwarder fan-out, and the admin command handlers
(`link`, `unlink`, `add filter`, settings toggles).  Message text is
modelled as `String` / `List Char`; network sends are modelled by a
success oracle; ASCII case folding stands in for Python's `(?i)` flag.
-/

/-- The bot configuration, the JSON config record of `live_cloner.py`
(`get_default_config`, lines 104-116).  `entities` and `filters` keep the
JSON shape — lists of lists — because every consumer in the source guards
with `len(pair) >= 2` and skips shorter entries. -/
structure BotConfig where
  api_id : Int
  api_hash : String
  bot_enabled : Bool
  sudoUsers : List Int
  filter_words : Bool
  add_signature : Bool
  signature : String
  entities : List (List Int)
  filters : List (List String)
deriving Repr, DecidableEq

/-- An inbound message event as the handlers consume it: direction,
chat id, sender, raw text (`""` when the message has no text), and the
media / poll flags. -/
structure MsgEvent where
  incoming : Bool
  chat_id : Int
  sender_id : Int
  sender_is_self : Bool
  text : String
  has_media : Bool
  has_poll : Bool
  msg_id : Int
deriving Repr, DecidableEq

/-- ASCII case-insensitive character comparison, modelling the `(?i)` flag
of the `re.sub` call at line 334 (ASCII fragment of Python's folding). -/
def ciEq (a b : Char) : Bool := a.toLower == b.toLower

/-- Does `pat` case-insensitively match a prefix of the text? -/
def ciStartsWith : List Char → List Char → Bool
  | [], _ => true
  | _ :: _, [] => false
  | p :: ps, c :: cs => ciEq p c && ciStartsWith ps cs

/-- Does `pat` occur case-insensitively anywhere in the text? -/
def ciOccurs (pat : List Char) : List Char → Bool
  | [] => pat.isEmpty
  | c :: cs => ciStartsWith pat (c :: cs) || ciOccurs pat cs

/-- One `re.sub(r'(?i)' + re.escape(frm), to, s)` pass (line 334): scan
left to right, replacing each non-overlapping case-insensitive occurrence
of `frm` by `to`, the replacement inserted verbatim (faithful for
replacement strings without backslash escapes).  `fuel ≥ s.length` makes
the recursion structural; the wrapper `ciReplace` supplies it.  An empty
`frm` inserts `to` around every character, as `re.sub` does with an empty
pattern. -/
def ciReplaceF (frm rep : List Char) : Nat → List Char → List Char
  | _, [] => if frm.isEmpty then rep else []
  | 0, s => s
  | fuel + 1, c :: s =>
    if frm.isEmpty then rep ++ c :: ciReplaceF frm rep fuel s
    else if ciStartsWith frm (c :: s) then
      rep ++ ciReplaceF frm rep fuel (s.drop (frm.length - 1))
    else c :: ciReplaceF frm rep fuel s

/-- Case-insensitive replace-all of `frm` by `to` in `s`. -/
def ciReplace (frm rep s : List Char) : List Char := ciReplaceF frm rep s.length s

/-- The word-filter pass of `forwarder` (lines 330-334): every configured
filter applied in list order, entries shorter than 2 skipped. -/
def applyFilters (filters : List (List String)) (t : List Char) : List Char :=
  filters.foldl
    (fun acc f =>
      match f with
      | frm :: rep :: _ => ciReplace frm.toList rep.toList acc
      | _ => acc) t

/-- The text transformation of `forwarder` (lines 327-339): word filters
when `filter_words` is set, then `"\n\n" + signature` appended when
`add_signature` is set, the configured signature is non-empty and the
(filtered) text is non-empty. -/
def transformText (cfg : BotConfig) (t : String) : String :=
  let t1 := if cfg.filter_words then String.mk (applyFilters cfg.filters t.toList) else t
  if cfg.add_signature ∧ cfg.signature ≠ "" ∧ t1 ≠ "" then
    t1 ++ "\n\n" ++ cfg.signature
  else t1

/-- Destination lookup of `forwarder` (lines 310-315): the targets of all
rules whose source equals the chat id, in list order. -/
def matchedTargets (entities : List (List Int)) (chat : Int) : List Int :=
  entities.filterMap fun e =>
    match e with
    | a :: b :: _ => if a = chat then some b else none
    | _ => none

/-- The status gate (handler `check_status`, lines 291-300), registered
first on incoming events.  `true` means the handler returned normally and
propagation continues to the later handlers; `false` means it raised
`events.StopPropagation`.  Note the early `return` when the bot is
disabled: propagation continues, and the sender gate is skipped. -/
def check_status (cfg : BotConfig) (m : MsgEvent) : Bool :=
  if !cfg.bot_enabled then true
  else if m.sender_is_self || decide (m.sender_id ∈ cfg.sudoUsers) then true
  else false

/-- The admin-command sender gate (`forbid_non_sudo_commands`, lines
388-395): `true` = propagation continues to the command handlers. -/
def forbid_non_sudo (cfg : BotConfig) (m : MsgEvent) : Bool :=
  m.sender_is_self || decide (m.sender_id ∈ cfg.sudoUsers)

/-- Outcome of one `forwarder` invocation: successful text sends
`(target, text)`, message-mapping entries `(target, sent_message_id)`
appended under the source key (`store_message_mapping`, lines 724-744),
the count of logged per-destination failures, poll forwards, and the
increment applied to `processed_messages`. -/
structure ForwardResult where
  sends : List (Int × String)
  mappings : List (Int × Int)
  failures : Nat
  pollForwards : List Int
  counterDelta : Nat
deriving Repr, DecidableEq

/-- The per-destination fan-out loop of `forwarder` (lines 349-374): the
`j`-th send attempt succeeds iff `ok j`, a success stores a mapping entry
with sent id `sid j`, a failure is logged and the loop continues with the
next destination. -/
def fanLoop (ok : Nat → Bool) (sid : Nat → Int) (text : String) :
    List Int → List (Int × String) × List (Int × Int) × Nat
  | [] => ([], [], 0)
  | t :: ts =>
    let r := fanLoop (fun i => ok (i + 1)) (fun i => sid (i + 1)) text ts
    if ok 0 then ((t, text) :: r.1, (t, sid 0) :: r.2.1, r.2.2)
    else (r.1, r.2.1, r.2.2 + 1)

/-- The `forwarder` handler (lines 302-380), with the network send
modelled by the success oracle `ok` and sent-message ids by `sid`:
no matched rule → no-op; poll → `forward_to` every target and count the
message once; otherwise transform the text, fan out, and count once. -/
def forwarder (cfg : BotConfig) (m : MsgEvent) (ok : Nat → Bool) (sid : Nat → Int) :
    ForwardResult :=
  let targets := matchedTargets cfg.entities m.chat_id
  if targets.isEmpty then ⟨[], [], 0, [], 0⟩
  else if m.has_poll then ⟨[], [], 0, targets, 1⟩
  else
    let text := transformText cfg m.text
    let r := fanLoop ok sid text targets
    ⟨r.1, r.2.1, r.2.2, [], 1⟩

/-- Dispatch of one event through the handler chain up to `forwarder`:
`check_status` (incoming events only) may stop propagation, otherwise
`forwarder` runs. -/
def processEvent (cfg : BotConfig) (m : MsgEvent) (ok : Nat → Bool) (sid : Nat → Int) :
    ForwardResult :=
  if m.incoming && !check_status cfg m then ⟨[], [], 0, [], 0⟩
  else forwarder cfg m ok sid

/-! ### Admin command handlers -/

/-- Reply classification of the `link` command. -/
inductive LinkReply
  | cycle
  | already
  | linked
deriving Repr, DecidableEq

/-- Outcome of a `link` command on the config store. -/
structure LinkOut where
  entities : List (List Int)
  persisted : Bool
  reply : LinkReply
deriving Repr, DecidableEq

/-- The reverse-rule scan of `link_entities` (lines 439-442): some entry of
length ≥ 2 is `[b, a, …]`. -/
def revLinked (entities : List (List Int)) (a b : Int) : Bool :=
  entities.any fun e =>
    match e with
    | x :: y :: _ => x == b && y == a
    | _ => false

/-- Core of the `link` command (`link_entities`, lines 430-457) after both
identifiers have been resolved to entity ids `a` and `b`: reject when the
reverse rule exists ("cycle detected"), reject when `[a, b]` itself exists
("already exists"), otherwise append `[a, b]` and persist the config. -/
def link_entities (entities : List (List Int)) (a b : Int) : LinkOut :=
  if revLinked entities a b then ⟨entities, false, .cycle⟩
  else if [a, b] ∈ entities then ⟨entities, false, .already⟩
  else ⟨entities ++ [[a, b]], true, .linked⟩

/-- Reply classification of the `add filter` command; `dup w` carries the
`to` word of the existing filter reported in the duplicate message. -/
inductive FilterReply
  | cycle
  | dup (w : String)
  | already
  | added
deriving Repr, DecidableEq

/-- Outcome of an `add filter` command on the config store. -/
structure FilterOut where
  filters : List (List String)
  persisted : Bool
  reply : FilterReply
deriving Repr, DecidableEq

/-- The rejection scan of `add_filter` (lines 519-526): in list order, on
each entry of length ≥ 2 first the cycle test (`[y, x, …]`), then the
duplicate-source test (`[x, …]`); the first hit wins. -/
def filterReject (x y : String) : List (List String) → Option FilterReply
  | [] => none
  | f :: fs =>
    match f with
    | a :: b :: _ =>
      if a = y ∧ b = x then some .cycle
      else if a = x then some (.dup b)
      else filterReject x y fs
    | _ => filterReject x y fs

/-- The `add filter "<x>" to "<y>"` command (`add_filter`, lines 505-535):
reject on cycle or duplicate source word, otherwise append and persist. -/
def add_filter (filters : List (List String)) (x y : String) : FilterOut :=
  match filterReject x y filters with
  | some r => ⟨filters, false, r⟩
  | none =>
    if [x, y] ∈ filters then ⟨filters, false, .already⟩
    else ⟨filters ++ [[x, y]], true, .added⟩

/-! ### Regex pattern matchers of the command surface -/

/-- `[a-zA-Z0-9_]`, the identifier-tail character class of the entity
token patterns. -/
def isIdChar (c : Char) : Bool := c.isAlphanum || c == '_'

/-- `[1-9a-zA-Z]`, the leading character class of an entity token. -/
def isTokStart (c : Char) : Bool := ('1' ≤ c && c ≤ '9') || c.isAlpha

/-- Body of an entity token after the optional sign:
`[1-9a-zA-Z][a-zA-Z0-9_]{4,}` anchored to the end of the text. -/
def tokCore : List Char → Bool
  | [] => false
  | c :: rest => isTokStart c && decide (4 ≤ rest.length) && rest.all isIdChar

/-- An entity token with (`allowNeg = true`) or without (`allowNeg =
false`) the leading `-?`.  The registration pattern of `unlink` (line 459)
allows the sign; the re-match inside the handler (line 462) does not. -/
def entityTok (allowNeg : Bool) (l : List Char) : Bool :=
  match l with
  | '-' :: rest => allowNeg && tokCore rest
  | _ => tokCore l

/-- `@?` followed by an entity token. -/
def atTok (allowNeg : Bool) (l : List Char) : Bool :=
  match l with
  | '@' :: rest => entityTok allowNeg rest
  | _ => entityTok allowNeg l

/-- The registration pattern of the `unlink` handler,
`^[Uu]nlink @?(-?[1-9a-zA-Z][a-zA-Z0-9_]{4,})$` (line 459). -/
def matchUnlinkOuter (s : String) : Bool :=
  match s.toList with
  | c :: rest =>
    (c == 'U' || c == 'u') && rest.take 6 == "nlink ".toList && atTok true (rest.drop 6)
  | [] => false

/-- The re-match inside the `unlink` handler,
`^[Uu]nlink @?([1-9a-zA-Z][a-zA-Z0-9_]{4,})$` (line 462) — note the
missing `-?` compared to the registration pattern — applied to the
`@`-stripped text, yielding the captured token. -/
def matchUnlinkInner (s : String) : Option String :=
  match s.toList with
  | c :: rest =>
    if (c == 'U' || c == 'u') && rest.take 6 == "nlink ".toList then
      let tl := rest.drop 6
      let tok := match tl with
        | '@' :: r => r
        | _ => tl
      if entityTok false tok then some (String.mk tok) else none
    else none
  | [] => none

/-- Python's `str.lower()` on the ASCII fragment, character by
character. -/
def pyLower (s : String) : String := String.mk (s.toList.map Char.toLower)

/-- Tail of a Python decimal integer literal: digits, with single
underscores allowed between digits (`int("1_000")` parses in Python). -/
def pyIntTail : List Char → Bool
  | [] => true
  | '_' :: c :: rest => c.isDigit && pyIntTail rest
  | c :: rest => c.isDigit && pyIntTail rest

/-- Value of a digit string, underscores skipped. -/
def pyDigitsVal (l : List Char) : Nat :=
  (l.filter (fun c => c != '_')).foldl (fun n c => 10 * n + (c.toNat - '0'.toNat)) 0

/-- `int(s)` on the tokens the entity patterns can produce: optional `-`,
then decimal digits with legal underscores; `none` models the
`ValueError` branch that keeps the token as an alias string. -/
def parsePyInt (l : List Char) : Option Int :=
  match l with
  | '-' :: c :: rest =>
    if c.isDigit && pyIntTail rest then some (-(pyDigitsVal (c :: rest) : Int)) else none
  | c :: rest =>
    if c.isDigit && pyIntTail rest then some ((pyDigitsVal (c :: rest) : Int)) else none
  | [] => none

/-- The removal loop of `unlink_entities` (lines 480-484): iterate a copy
of the list, removing every entry whose source equals `idv` and counting
the removals. -/
def removeBySource (idv : Int) : List (List Int) → List (List Int) × Nat
  | [] => ([], 0)
  | e :: es =>
    let r := removeBySource idv es
    match e with
    | a :: _ :: _ => if a = idv then (r.1, r.2 + 1) else (e :: r.1, r.2)
    | _ => (e :: r.1, r.2)

/-- Reply classification of the `unlink` command. -/
inductive UnlinkReply
  | unlinked (n : Nat)
  | notFound
  | err
deriving Repr, DecidableEq

/-- Outcome of an `unlink` command; `reply = none` means the handler sent
nothing at all. -/
structure UnlinkOut where
  entities : List (List Int)
  persisted : Bool
  reply : Option UnlinkReply
deriving Repr, DecidableEq

/-- The `unlink` handler (`unlink_entities`, lines 459-496).  `resolve`
models `client.get_entity` on a numeric id or alias and returns the
resolved entity id, `none` standing for the exception branch.  The handler
fires only when the registration pattern matches; inside, the text with
every `@` removed is re-matched against the narrower pattern, and the
handler silently returns when that fails. -/
def unlink_entities (raw : String) (resolve : Int ⊕ String → Option Int)
    (entities : List (List Int)) : UnlinkOut :=
  if !matchUnlinkOuter raw then ⟨entities, false, none⟩
  else
    match matchUnlinkInner (String.mk (raw.toList.filter (fun c => c != '@'))) with
    | none => ⟨entities, false, none⟩
    | some tok =>
      let tokL := pyLower tok
      let key : Int ⊕ String :=
        match parsePyInt tokL.toList with
        | some n => Sum.inl n
        | none => Sum.inr tokL
      match resolve key with
      | none => ⟨entities, false, some .err⟩
      | some rid =>
        let r := removeBySource rid entities
        if 0 < r.2 then ⟨r.1, true, some (.unlinked r.2)⟩
        else ⟨entities, false, some .notFound⟩

/-! ### Settings command handlers -/

/-- Reply classification of the settings commands. -/
inductive SettingsReply
  | botOn
  | botOff
  | filtersOn
  | filtersOff
  | signOn
  | signOff
  | signatureSet (t : String)
deriving Repr, DecidableEq

/-- Outcome of a settings command on the config store. -/
structure CmdOut where
  cfg : BotConfig
  persisted : Bool
  reply : Option SettingsReply
deriving Repr, DecidableEq

/-- Tail `(:?n|ff)` of the on-off patterns.  The source writes `(:?…)` —
a group matching an optional colon before `n` — not the non-capturing
marker `(?:…)`, so the accepted tails are `n`, `:n` and `ff`. -/
def onOffTail (l : List Char) : Bool :=
  l == ['n'] || l == [':', 'n'] || l == ['f', 'f']

/-- `^[Oo](:?n|ff)$`, the registration pattern of `change_bot_status`
(line 632). -/
def matchOnOff (s : String) : Bool :=
  match s.toList with
  | c :: rest => (c == 'O' || c == 'o') && onOffTail rest
  | [] => false

/-- `^[Ss]ync$`, the registration pattern of `sync_dialogs` (line 397). -/
def matchSync (s : String) : Bool := s == "sync" || s == "Sync"

/-- `^[Ff]ilters ([Oo](:?n|ff))$` (lines 645-648), yielding the captured
on-off part used by the handler. -/
def matchFiltersOnOff (s : String) : Option String :=
  match s.toList with
  | c :: rest =>
    if (c == 'F' || c == 'f') && rest.take 7 == "ilters ".toList &&
        matchOnOff (String.mk (rest.drop 7)) then
      some (String.mk (rest.drop 7))
    else none
  | [] => none

/-- `^[Ss]ign ([Oo](:?n|ff))$` (lines 664-667), yielding the captured
on-off part used by the handler. -/
def matchSignOnOff (s : String) : Option String :=
  match s.toList with
  | c :: rest =>
    if (c == 'S' || c == 's') && rest.take 4 == "ign ".toList &&
        matchOnOff (String.mk (rest.drop 4)) then
      some (String.mk (rest.drop 4))
    else none
  | [] => none

/-- `^[Ss]ign text (.+)$` (line 683): since `.` does not match a newline,
the capture is the non-empty newline-free remainder. -/
def matchSignText (s : String) : Option String :=
  match s.toList with
  | c :: rest =>
    if (c == 'S' || c == 's') && rest.take 9 == "ign text ".toList then
      let cap := rest.drop 9
      if !cap.isEmpty && cap.all (fun x => x != '\n') then some (String.mk cap)
      else none
    else none
  | [] => none

/-- `change_bot_status` (lines 632-643): fires on the on-off pattern and
acts on the lowercased raw text; a fired handler whose lowercased text is
neither `on` nor `off` (such as `O:n`) does nothing. -/
def change_bot_status (cfg : BotConfig) (raw : String) : CmdOut :=
  if matchOnOff raw then
    let command := pyLower raw
    if command == "on" then ⟨{cfg with bot_enabled := true}, true, some .botOn⟩
    else if command == "off" then ⟨{cfg with bot_enabled := false}, true, some .botOff⟩
    else ⟨cfg, false, none⟩
  else ⟨cfg, false, none⟩

/-- `change_filters_status` (lines 645-662). -/
def change_filters_status (cfg : BotConfig) (raw : String) : CmdOut :=
  match matchFiltersOnOff raw with
  | some g =>
    let command := pyLower g
    if command == "on" then ⟨{cfg with filter_words := true}, true, some .filtersOn⟩
    else if command == "off" then ⟨{cfg with filter_words := false}, true, some .filtersOff⟩
    else ⟨cfg, false, none⟩
  | none => ⟨cfg, false, none⟩

/-- `change_signature_status` (lines 664-681). -/
def change_signature_status (cfg : BotConfig) (raw : String) : CmdOut :=
  match matchSignOnOff raw with
  | some g =>
    let command := pyLower g
    if command == "on" then ⟨{cfg with add_signature := true}, true, some .signOn⟩
    else if command == "off" then ⟨{cfg with add_signature := false}, true, some .signOff⟩
    else ⟨cfg, false, none⟩
  | none => ⟨cfg, false, none⟩

/-- `change_signature_text` (lines 683-694). -/
def change_signature_text (cfg : BotConfig) (raw : String) : CmdOut :=
  match matchSignText raw with
  | some t => ⟨{cfg with signature := t}, true, some (.signatureSet t)⟩
  | none => ⟨cfg, false, none⟩

/-- The side condition of the idempotence property, from the spec's words:
no filter's `to` value matches another filter's `from` value.  "Matches"
is read as a case-insensitive substring occurrence of the `from` value in
the `to` value; on the concrete filter lists used below the verdict is
the same under plain or case-insensitive equality as well. -/
def chainFree (filters : List (List String)) : Bool :=
  filters.enum.all fun p =>
    filters.enum.all fun q =>
      p.1 == q.1 ||
        match p.2, q.2 with
        | _ :: ti :: _, fj :: _ :: _ => !ciOccurs fj.toList ti.toList
        | _, _ => true

/-! ### Claim theorems -/

/-- Config with the bot disabled, no sudo users, and the single routing
rule `100 → 200`. -/
def cfgDisabled : BotConfig := ⟨1, "h", false, [], true, false, "", [[100, 200]], []⟩

/-- An incoming non-poll text message in chat 100 from an unprivileged
sender. -/
def msgPlain : MsgEvent := ⟨true, 100, 555, false, "x", false, false, 41⟩

/-- C1: the claim fails on the code.  With `bot_enabled = false` the
status gate merely `return`s instead of raising `StopPropagation`, so the
event is not dropped: `forwarder` still runs, the message is sent to the
matched destination, a MessageMapping entry is written, and the
processed-message counter increments — here even for an unprivileged
sender, because the disabled branch returns before the sender gate. -/
theorem c1_disabled_still_forwards :
    cfgDisabled.bot_enabled = false ∧
    check_status cfgDisabled msgPlain = true ∧
    processEvent cfgDisabled msgPlain (fun _ => true) (fun _ => 900) =
      ⟨[(200, "x")], [(200, 900)], 0, [], 1⟩ := by
  decide

/-- Resolver that resolves a numeric id to itself and no alias. -/
def resolveIdOnly : Int ⊕ String → Option Int
  | Sum.inl n => some n
  | Sum.inr _ => none

/-- C6: the claim fails on the code for negative numeric ids.  The
registration pattern of `unlink` accepts `-?`, but the re-match inside
the handler omits it, so `unlink -12345` fires the handler and then
silently returns: no "no links found" reply is produced (the rule list is
still unchanged).  For a positive id the claimed behaviour does hold:
`unlink 12345` with no matching rule replies "no links found" and leaves
the list unchanged. -/
theorem c6_negative_id_silently_ignored :
    matchUnlinkOuter "unlink -12345" = true ∧
    unlink_entities "unlink -12345" resolveIdOnly [[7, 8]] = ⟨[[7, 8]], false, none⟩ ∧
    unlink_entities "unlink 12345" resolveIdOnly [[7, 8]] =
      ⟨[[7, 8]], false, some .notFound⟩ := by
  decide

/-- The scenario config: rules `[[100, 200]]`, filters
`[["hello", "hi"]]`, `add_signature = true`, signature `—bot`. -/
def cfgScenario : BotConfig :=
  ⟨1, "h", true, [], true, true, "—bot", [[100, 200]], [["hello", "hi"]]⟩

/-- The scenario message: an incoming non-poll, non-media message from
chat 100 with text `Hello world`, sent by the bot's own account so the
sender gate passes. -/
def msgScenario : MsgEvent := ⟨true, 100, 0, true, "Hello world", false, false, 7⟩

/-- C7: confirmed.  With rules `[[100, 200]]`, filters
`[["hello", "hi"]]`, `add_signature = true` and signature `—bot`, an
inbound non-poll non-media message from chat 100 with text `Hello world`
passes the gates and produces exactly one outbound message, to chat 200,
with text `hi world\n\n—bot`: the filter applied case-insensitively, then
the signature appended after a blank line. -/
theorem c7_filter_and_signature_scenario :
    processEvent cfgScenario msgScenario (fun _ => true) (fun _ => 900) =
      ⟨[(200, "hi world\n\n—bot")], [(200, 900)], 0, [], 1⟩ := by
  decide

/-- C8: the claim fails on the code.  Command keywords are not recognized
case-insensitively: the registration patterns only let the first letter
vary (`^[Ss]ync$`, `^[Oo](:?n|ff)$`), so `SYNC` and `ON` match no
handler while the lowercase forms do. -/
theorem c8_uppercase_keywords_not_matched :
    matchSync "sync" = true ∧ matchSync "Sync" = true ∧ matchSync "SYNC" = false ∧
    matchOnOff "on" = true ∧ matchOnOff "ON" = false := by
  decide

/-- C8 (amended): only the first letter of each command keyword is
case-flexible — `sync`/`Sync` match but `SYNC` does not, `on`/`On` match
but `ON` and `oN` do not, `sign on`/`Sign On` match but `SIGN ON` does
not — and a capitalized form that does match performs the same action as
the lowercase form, because the handlers act on the lowercased text. -/
theorem c8_first_letter_case_flexible : ∀ cfg : BotConfig,
    (matchSync "sync" = true ∧ matchSync "Sync" = true ∧ matchSync "SYNC" = false) ∧
    (matchOnOff "on" = true ∧ matchOnOff "On" = true ∧ matchOnOff "ON" = false ∧
      matchOnOff "oN" = false ∧ matchOnOff "off" = true ∧ matchOnOff "Off" = true ∧
      matchOnOff "OFF" = false) ∧
    ((matchSignOnOff "sign on").isSome = true ∧ (matchSignOnOff "Sign On").isSome = true ∧
      (matchSignOnOff "SIGN ON").isSome = false) ∧
    change_bot_status cfg "On" = change_bot_status cfg "on" ∧
    change_bot_status cfg "Off" = change_bot_status cfg "off" ∧
    change_signature_status cfg "Sign On" = change_signature_status cfg "sign on" := by
  intro cfg
  exact ⟨by decide, by decide, by decide, rfl, rfl, rfl⟩

/-- A single word filter replacing `aa` by `a`: no *other* filter exists,
so the no-chained-transformation side condition holds vacuously. -/
def filtersSelfChain : List (List String) := [["aa", "a"]]

/-- The filter pair `a → b`, `b → a`: the second filter's `from` value
equals (and so occurs in) the first filter's `to` value. -/
def filtersSwap : List (List String) := [["a", "b"], ["b", "a"]]

/-- C2: the claim fails on the code.  For the filter list `[["aa","a"]]`
no filter's `to` value matches another filter's `from` value, yet the
filter pass is not idempotent on `"aaa"`: one pass gives `"aa"` (the
replacement consumes the first two `a`s), a second pass gives `"a"`. -/
theorem c2_single_filter_not_idempotent :
    chainFree filtersSelfChain = true ∧
    applyFilters filtersSelfChain (applyFilters filtersSelfChain "aaa".toList) ≠
      applyFilters filtersSelfChain "aaa".toList := by
  decide

/-- In the fan-out loop, if every send attempt succeeds then there are no
failures and one send and one mapping entry per destination. -/
theorem fanLoop_all_ok (text : String) :
    ∀ (ts : List Int) (ok : Nat → Bool) (sid : Nat → Int),
      (∀ i, i < ts.length → ok i = true) →
      (fanLoop ok sid text ts).1.length = ts.length ∧
      (fanLoop ok sid text ts).2.1.length = ts.length ∧
      (fanLoop ok sid text ts).2.2 = 0 := by
  intro ts
  induction ts with
  | nil => intro ok sid h; exact ⟨rfl, rfl, rfl⟩
  | cons t ts ih =>
    intro ok sid h
    have h0 : ok 0 = true := h 0 (Nat.succ_pos _)
    have hr := ih (fun i => ok (i + 1)) (fun i => sid (i + 1))
      (fun i hi => h (i + 1) (Nat.succ_lt_succ hi))
    simp [fanLoop, h0, hr.1, hr.2.1, hr.2.2]

/-- In the fan-out loop, if exactly the `k`-th send attempt fails then
exactly one failure is counted and there is one send and one mapping
entry for each of the other destinations. -/
theorem fanLoop_one_fail (text : String) :
    ∀ (ts : List Int) (ok : Nat → Bool) (sid : Nat → Int) (k : Nat),
      k < ts.length → (∀ i, i < ts.length → (ok i = false ↔ i = k)) →
      (fanLoop ok sid text ts).1.length = ts.length - 1 ∧
      (fanLoop ok sid text ts).2.1.length = ts.length - 1 ∧
      (fanLoop ok sid text ts).2.2 = 1 := by
  intro ts
  induction ts with
  | nil => intro ok sid k hk h; exact absurd hk (Nat.not_lt_zero k)
  | cons t ts ih =>
    intro ok sid k hk h
    cases k with
    | zero =>
      have h0 : ok 0 = false := (h 0 (Nat.succ_pos _)).mpr rfl
      have hall : ∀ i, i < ts.length → ok (i + 1) = true := by
        intro i hi
        cases hoi : ok (i + 1) with
        | true => rfl
        | false =>
          have := (h (i + 1) (Nat.succ_lt_succ hi)).mp hoi
          exact absurd this (Nat.succ_ne_zero i)
      have hr := fanLoop_all_ok text ts (fun i => ok (i + 1)) (fun i => sid (i + 1)) hall
      refine ⟨?_, ?_, ?_⟩ <;> simp [fanLoop, h0, hr.1, hr.2.1, hr.2.2]
    | succ k' =>
      have h0 : ok 0 = true := by
        cases ho : ok 0 with
        | true => rfl
        | false =>
          have := (h 0 (Nat.succ_pos _)).mp ho
          exact absurd this (Ne.symm (Nat.succ_ne_zero k'))
      have hk' : k' < ts.length := Nat.lt_of_succ_lt_succ hk
      have hshift : ∀ i, i < ts.length → ((ok (i + 1) = false) ↔ i = k') := by
        intro i hi
        have hiff := h (i + 1) (Nat.succ_lt_succ hi)
        constructor
        · intro hf; exact Nat.succ_injective (hiff.mp hf)
        · intro he; exact hiff.mpr (by rw [he])
      have hr := ih (fun i => ok (i + 1)) (fun i => sid (i + 1)) k' hk' hshift
      refine ⟨?_, ?_, ?_⟩ <;>
        simp [fanLoop, h0, hr.1, hr.2.1, hr.2.2] <;> omega

/-- C3: confirmed.  For a non-poll message matched by `N` routing rules
where exactly the send to the `k`-th destination fails and the other
`N - 1` succeed, the fan-out continues past the failure: exactly `N - 1`
sends go out and `N - 1` MessageMapping entries are recorded, exactly one
failure is logged, and the processed-message counter increments by
exactly one. -/
theorem c3_per_destination_failure_is_isolated (cfg : BotConfig) (m : MsgEvent)
    (ok : Nat → Bool) (sid : Nat → Int) (k : Nat)
    (hpoll : m.has_poll = false)
    (hk : k < (matchedTargets cfg.entities m.chat_id).length)
    (hone : ∀ i, i < (matchedTargets cfg.entities m.chat_id).length →
      (ok i = false ↔ i = k)) :
    (forwarder cfg m ok sid).sends.length =
      (matchedTargets cfg.entities m.chat_id).length - 1 ∧
    (forwarder cfg m ok sid).mappings.length =
      (matchedTargets cfg.entities m.chat_id).length - 1 ∧
    (forwarder cfg m ok sid).failures = 1 ∧
    (forwarder cfg m ok sid).counterDelta = 1 := by
  have hne : (matchedTargets cfg.entities m.chat_id).isEmpty = false := by
    cases hx : matchedTargets cfg.entities m.chat_id with
    | nil => rw [hx] at hk; exact absurd hk (Nat.not_lt_zero k)
    | cons a l => rfl
  have hr := fanLoop_one_fail (transformText cfg m.text)
    (matchedTargets cfg.entities m.chat_id) ok sid k hk hone
  refine ⟨?_, ?_, ?_, ?_⟩ <;> simp [forwarder, hne, hpoll, hr.1, hr.2.1, hr.2.2]

/-- Witness for C3: two rules from chat 1, the first send fails, the
second succeeds: one send, one mapping, one failure, counter plus one. -/
theorem c3_witness :
    (forwarder ⟨1, "h", true, [], false, false, "", [[1, 2], [1, 3]], []⟩
        ⟨true, 1, 0, true, "t", false, false, 5⟩
        (fun i => decide (i ≠ 0)) (fun i => (700 : Int) + i)).sends.length = 1 ∧
    (forwarder ⟨1, "h", true, [], false, false, "", [[1, 2], [1, 3]], []⟩
        ⟨true, 1, 0, true, "t", false, false, 5⟩
        (fun i => decide (i ≠ 0)) (fun i => (700 : Int) + i)).mappings.length = 1 ∧
    (forwarder ⟨1, "h", true, [], false, false, "", [[1, 2], [1, 3]], []⟩
        ⟨true, 1, 0, true, "t", false, false, 5⟩
        (fun i => decide (i ≠ 0)) (fun i => (700 : Int) + i)).failures = 1 ∧
    (forwarder ⟨1, "h", true, [], false, false, "", [[1, 2], [1, 3]], []⟩
        ⟨true, 1, 0, true, "t", false, false, 5⟩
        (fun i => decide (i ≠ 0)) (fun i => (700 : Int) + i)).counterDelta = 1 := by
  have h := c3_per_destination_failure_is_isolated
    ⟨1, "h", true, [], false, false, "", [[1, 2], [1, 3]], []⟩
    ⟨true, 1, 0, true, "t", false, false, 5⟩
    (fun i => decide (i ≠ 0)) (fun i => (700 : Int) + i) 0 rfl (by decide)
    (by intro i hi; by_cases hi0 : i = 0 <;> simp [hi0])
  exact ⟨h.1, h.2.1, h.2.2.1, h.2.2.2⟩

/-- The per-entry test of the reverse-rule scan in `link_entities`. -/
def isRevPair (a b : Int) (e : List Int) : Bool :=
  match e with
  | x :: y :: _ => x == b && y == a
  | _ => false

/-- `isRevPair` holds exactly on entries of the form `b :: a :: rest`. -/
theorem isRevPair_iff (a b : Int) (e : List Int) :
    isRevPair a b e = true ↔ ∃ rest, e = b :: a :: rest := by
  rcases e with _ | ⟨x, e⟩
  · simp [isRevPair]
  rcases e with _ | ⟨y, rest⟩
  · simp [isRevPair]
  · simp only [isRevPair, Bool.and_eq_true, beq_iff_eq]
    constructor
    · rintro ⟨rfl, rfl⟩; exact ⟨rest, rfl⟩
    · rintro ⟨r, heq⟩
      injection heq with h1 h2
      injection h2 with h2 _
      exact ⟨h1, h2⟩

/-- The reverse-rule scan succeeds exactly when some entry starts with
`b, a`. -/
theorem revLinked_iff (a b : Int) (entities : List (List Int)) :
    revLinked entities a b = true ↔ ∃ rest, b :: a :: rest ∈ entities := by
  have : revLinked entities a b = entities.any (isRevPair a b) := by
    rw [revLinked]; rfl
  rw [this, List.any_eq_true]
  constructor
  · rintro ⟨e, he, hrev⟩
    obtain ⟨rest, rfl⟩ := (isRevPair_iff a b e).mp hrev
    exact ⟨rest, he⟩
  · rintro ⟨rest, hmem⟩
    exact ⟨_, hmem, (isRevPair_iff a b _).mpr ⟨rest, rfl⟩⟩

/-- C4: confirmed.  Adding a routing rule `(a, b)` via the `link` command
when the reverse rule `(b, a)` exists replies with the cycle error and
changes nothing (and does not persist); when `(a, b)` itself exists (and
no reverse rule does) it replies with the already-exists error and
changes nothing; otherwise `[a, b]` is appended and the config is
persisted. -/
theorem c4_link_rejects_cycle_and_duplicate (entities : List (List Int)) (a b : Int) :
    ((∃ rest, b :: a :: rest ∈ entities) →
      link_entities entities a b = ⟨entities, false, .cycle⟩) ∧
    ((¬ ∃ rest, b :: a :: rest ∈ entities) → [a, b] ∈ entities →
      link_entities entities a b = ⟨entities, false, .already⟩) ∧
    ((¬ ∃ rest, b :: a :: rest ∈ entities) → [a, b] ∉ entities →
      link_entities entities a b = ⟨entities ++ [[a, b]], true, .linked⟩) := by
  refine ⟨fun h => ?_, fun h1 h2 => ?_, fun h1 h2 => ?_⟩
  · have hrv : revLinked entities a b = true := (revLinked_iff a b entities).mpr h
    simp [link_entities, hrv]
  · have hrv : revLinked entities a b = false := by
      cases hx : revLinked entities a b with
      | false => rfl
      | true => exact absurd ((revLinked_iff a b entities).mp hx) h1
    simp [link_entities, hrv, h2]
  · have hrv : revLinked entities a b = false := by
      cases hx : revLinked entities a b with
      | false => rfl
      | true => exact absurd ((revLinked_iff a b entities).mp hx) h1
    simp [link_entities, hrv, h2]

/-- Witness for C4: with the rule `[2, 1]` present, linking `1 → 2` is
rejected as a cycle and the list is unchanged. -/
theorem c4_witness :
    link_entities [[2, 1]] 1 2 = ⟨[[2, 1]], false, .cycle⟩ :=
  (c4_link_rejects_cycle_and_duplicate [[2, 1]] 1 2).1 ⟨[], by simp⟩

/-- C9: confirmed.  With the bot disabled, an incoming `on` command from
a privileged sender (self or a sudo id) passes the status gate — which
returns without stopping propagation when `bot_enabled` is false — and
the sender gate, fires the toggle handler, sets `bot_enabled` back to
true and persists the config: disabling the bot via chat never locks out
re-enabling it via chat. -/
theorem c9_off_does_not_lock_out (cfg : BotConfig) (m : MsgEvent)
    (hoff : cfg.bot_enabled = false)
    (hpriv : m.sender_is_self = true ∨ m.sender_id ∈ cfg.sudoUsers)
    (htext : m.text = "on") :
    check_status cfg m = true ∧
    forbid_non_sudo cfg m = true ∧
    matchOnOff m.text = true ∧
    (change_bot_status cfg m.text).cfg.bot_enabled = true ∧
    (change_bot_status cfg m.text).persisted = true := by
  refine ⟨?_, ?_, ?_, ?_, ?_⟩
  · simp [check_status, hoff]
  · rcases hpriv with h | h <;> simp [forbid_non_sudo, h]
  · rw [htext]; decide
  · rw [htext]; rfl
  · rw [htext]; rfl

/-- Config with the bot disabled and sudo id 9; used by the C9 witness. -/
def cfgOffSudo : BotConfig := ⟨1, "h", false, [9], true, false, "", [], []⟩

/-- An incoming `on` command from sudo sender 9; used by the C9
witness. -/
def msgOnCmd : MsgEvent := ⟨true, 5, 9, false, "on", false, false, 3⟩

/-- Witness for C9 at a concrete disabled config and sudo sender. -/
theorem c9_witness :
    check_status cfgOffSudo msgOnCmd = true ∧
    forbid_non_sudo cfgOffSudo msgOnCmd = true ∧
    matchOnOff msgOnCmd.text = true ∧
    (change_bot_status cfgOffSudo msgOnCmd.text).cfg.bot_enabled = true ∧
    (change_bot_status cfgOffSudo msgOnCmd.text).persisted = true :=
  c9_off_does_not_lock_out cfgOffSudo msgOnCmd rfl (Or.inr (by decide)) rfl

/-- A single-character pattern makes `ciReplaceF` act as a character
map. -/
theorem ciReplaceF_single (c d : Char) :
    ∀ (fuel : Nat) (s : List Char), s.length ≤ fuel →
      ciReplaceF [c] [d] fuel s = s.map (fun x => if ciEq c x then d else x) := by
  intro fuel
  induction fuel with
  | zero =>
    intro s hs
    cases s with
    | nil => rfl
    | cons x xs => simp at hs
  | succ fu ih =>
    intro s hs
    cases s with
    | nil => rfl
    | cons x xs =>
      have hx : xs.length ≤ fu := by simpa using hs
      by_cases h : ciEq c x = true
      · simp [ciReplaceF, ciStartsWith, h, ih xs hx]
      · simp [ciReplaceF, ciStartsWith, h, ih xs hx]

/-- A single-character pattern makes `ciReplace` act as a character
map. -/
theorem ciReplace_single (c d : Char) (s : List Char) :
    ciReplace [c] [d] s = s.map (fun x => if ciEq c x then d else x) :=
  ciReplaceF_single c d s.length s le_rfl

/-- The character action of the filter `a → b`. -/
def abSwapA (x : Char) : Char := if ciEq 'a' x then 'b' else x

/-- The character action of the filter `b → a`. -/
def abSwapB (x : Char) : Char := if ciEq 'b' x then 'a' else x

/-- The composite character action of the swap filter list is
idempotent. -/
theorem abSwap_pointwise_idem (x : Char) :
    abSwapB (abSwapA (abSwapB (abSwapA x))) = abSwapB (abSwapA x) := by
  by_cases ha : ciEq 'a' x = true
  · have e1 : abSwapA x = 'b' := by simp [abSwapA, ha]
    rw [e1]; decide
  · by_cases hb : ciEq 'b' x = true
    · have e1 : abSwapA x = x := by simp [abSwapA, ha]
      have e2 : abSwapB x = 'a' := by simp [abSwapB, hb]
      rw [e1, e2]; decide
    · have e1 : abSwapA x = x := by simp [abSwapA, ha]
      have e2 : abSwapB x = x := by simp [abSwapB, hb]
      rw [e1, e2, e1, e2]

/-- The filter pass of the swap list is the composite character map. -/
theorem applyFilters_swap (t : List Char) :
    applyFilters filtersSwap t = t.map (fun x => abSwapB (abSwapA x)) := by
  show ciReplace ['b'] ['a'] (ciReplace ['a'] ['b'] t) = _
  rw [ciReplace_single, ciReplace_single, List.map_map]
  rfl

/-- C2 (amended): the no-chained-transformation condition is neither
sufficient nor necessary for idempotence of the filter pass.  Not
sufficient: `[["aa", "a"]]` satisfies it (no other filter exists) yet one
pass maps `"aaa"` to `"aa"` and a second pass to `"a"`, because a
replacement can recreate its own pattern.  Not necessary: for
`[["a", "b"], ["b", "a"]]` the first filter's `to` value is the second
filter's `from` value, yet the pass is idempotent on every text. -/
theorem c2_chain_condition_neither_sufficient_nor_necessary :
    (chainFree filtersSelfChain = true ∧
      applyFilters filtersSelfChain "aaa".toList = "aa".toList ∧
      applyFilters filtersSelfChain "aa".toList = "a".toList) ∧
    (chainFree filtersSwap = false ∧
      ∀ t : List Char,
        applyFilters filtersSwap (applyFilters filtersSwap t) =
          applyFilters filtersSwap t) := by
  refine ⟨by decide, by decide, fun t => ?_⟩
  rw [applyFilters_swap, applyFilters_swap]
  induction t with
  | nil => rfl
  | cons x xs ih => simp [abSwap_pointwise_idem x, ih]

/-- The per-entry cycle test of the `add filter` rejection scan. -/
def isCycPair (x y : String) (e : List String) : Bool :=
  match e with
  | a :: b :: _ => a == y && b == x
  | _ => false

/-- The per-entry duplicate-source test of the `add filter` scan. -/
def isDupSource (x : String) (e : List String) : Bool :=
  match e with
  | a :: _ :: _ => a == x
  | _ => false

/-- If neither a cycle pair nor a duplicate source is present, the
rejection scan returns nothing. -/
theorem filterReject_eq_none (x y : String) :
    ∀ fs : List (List String),
      (¬ ∃ rest, y :: x :: rest ∈ fs) → (¬ ∃ b rest, x :: b :: rest ∈ fs) →
      filterReject x y fs = none := by
  intro fs
  induction fs with
  | nil => intro _ _; rfl
  | cons f fs ih =>
    intro hc hd
    have hc' : ¬ ∃ rest, y :: x :: rest ∈ fs := by
      rintro ⟨rest, hm⟩; exact hc ⟨rest, List.mem_cons_of_mem f hm⟩
    have hd' : ¬ ∃ b rest, x :: b :: rest ∈ fs := by
      rintro ⟨b, rest, hm⟩; exact hd ⟨b, rest, List.mem_cons_of_mem f hm⟩
    rcases f with _ | ⟨a, f⟩
    · simpa [filterReject] using ih hc' hd'
    rcases f with _ | ⟨b2, rest2⟩
    · simpa [filterReject] using ih hc' hd'
    · have h1 : ¬ (a = y ∧ b2 = x) := by
        rintro ⟨rfl, rfl⟩; exact hc ⟨rest2, List.mem_cons_self _ _⟩
      have h2 : a ≠ x := by
        rintro rfl; exact hd ⟨b2, rest2, List.mem_cons_self _ _⟩
      simpa [filterReject, h1, h2] using ih hc' hd'

/-- When a cycle pair is present and no duplicate source is, the scan
reports the cycle. -/
theorem filterReject_eq_cycle (x y : String) :
    ∀ fs : List (List String),
      (¬ ∃ b rest, x :: b :: rest ∈ fs) → (∃ rest, y :: x :: rest ∈ fs) →
      filterReject x y fs = some .cycle := by
  intro fs
  induction fs with
  | nil => rintro _ ⟨rest, hm⟩; exact absurd hm (List.not_mem_nil _)
  | cons f fs ih =>
    rintro hd ⟨rest, hm⟩
    have hd' : ¬ ∃ b rest, x :: b :: rest ∈ fs := by
      rintro ⟨b, r, hmem⟩; exact hd ⟨b, r, List.mem_cons_of_mem f hmem⟩
    rcases List.mem_cons.mp hm with heq | hmem
    · subst heq
      simp [filterReject]
    · rcases f with _ | ⟨a, f⟩
      · simpa [filterReject] using ih hd' ⟨rest, hmem⟩
      rcases f with _ | ⟨b2, rest2⟩
      · simpa [filterReject] using ih hd' ⟨rest, hmem⟩
      · have h2 : a ≠ x := by
          rintro rfl; exact hd ⟨b2, rest2, List.mem_cons_self _ _⟩
        by_cases h1 : a = y ∧ b2 = x
        · obtain ⟨rfl, rfl⟩ := h1
          simp [filterReject]
        · simpa [filterReject, h1, h2] using ih hd' ⟨rest, hmem⟩

/-- When a duplicate source is present and no cycle pair is, the scan
reports a duplicate. -/
theorem filterReject_eq_dup (x y : String) :
    ∀ fs : List (List String),
      (¬ ∃ rest, y :: x :: rest ∈ fs) → (∃ b rest, x :: b :: rest ∈ fs) →
      ∃ w, filterReject x y fs = some (.dup w) := by
  intro fs
  induction fs with
  | nil => rintro _ ⟨b, rest, hm⟩; exact absurd hm (List.not_mem_nil _)
  | cons f fs ih =>
    rintro hc ⟨b, rest, hm⟩
    have hc' : ¬ ∃ rest, y :: x :: rest ∈ fs := by
      rintro ⟨r, hmem⟩; exact hc ⟨r, List.mem_cons_of_mem f hmem⟩
    rcases List.mem_cons.mp hm with heq | hmem
    · subst heq
      have h1 : ¬ (x = y ∧ b = x) := by
        rintro ⟨rfl, rfl⟩; exact hc ⟨rest, List.mem_cons_self _ _⟩
      exact ⟨b, by simp [filterReject, h1]⟩
    · rcases f with _ | ⟨a, f⟩
      · simpa [filterReject] using ih hc' ⟨b, rest, hmem⟩
      rcases f with _ | ⟨b2, rest2⟩
      · simpa [filterReject] using ih hc' ⟨b, rest, hmem⟩
      · have h1 : ¬ (a = y ∧ b2 = x) := by
          rintro ⟨rfl, rfl⟩; exact hc ⟨rest2, List.mem_cons_self _ _⟩
        by_cases h2 : a = x
        · subst h2
          exact ⟨b2, by simp [filterReject, h1]⟩
        · simpa [filterReject, h1, h2] using ih hc' ⟨b, rest, hmem⟩

/-- Any rejection produced by the scan is a cycle or a duplicate. -/
theorem filterReject_shape (x y : String) :
    ∀ (fs : List (List String)) (r : FilterReply),
      filterReject x y fs = some r → r = .cycle ∨ ∃ w, r = .dup w := by
  intro fs
  induction fs with
  | nil => intro r h; exact absurd h (by simp [filterReject])
  | cons f fs ih =>
    intro r h
    rcases f with _ | ⟨a, f⟩
    · exact ih r (by simpa [filterReject] using h)
    rcases f with _ | ⟨b2, rest2⟩
    · exact ih r (by simpa [filterReject] using h)
    · by_cases h1 : a = y ∧ b2 = x
      · rw [filterReject, if_pos h1] at h
        exact Or.inl (Option.some.inj h).symm
      · by_cases h2 : a = x
        · rw [filterReject, if_neg h1, if_pos h2] at h
          exact Or.inr ⟨b2, (Option.some.inj h).symm⟩
        · exact ih r (by rw [filterReject, if_neg h1, if_neg h2] at h; exact h)

/-- If a cycle pair or a duplicate source is present, the scan rejects. -/
theorem filterReject_ne_none (x y : String) :
    ∀ fs : List (List String),
      ((∃ rest, y :: x :: rest ∈ fs) ∨ (∃ b rest, x :: b :: rest ∈ fs)) →
      ∃ r, filterReject x y fs = some r := by
  intro fs
  induction fs with
  | nil =>
    rintro (⟨rest, hm⟩ | ⟨b, rest, hm⟩) <;> exact absurd hm (List.not_mem_nil _)
  | cons f fs ih =>
    intro h
    rcases f with _ | ⟨a, f⟩
    · have h' : (∃ rest, y :: x :: rest ∈ fs) ∨ (∃ b rest, x :: b :: rest ∈ fs) := by
        rcases h with ⟨rest, hm⟩ | ⟨b, rest, hm⟩
        · rcases List.mem_cons.mp hm with heq | hmem
          · exact absurd heq (by simp)
          · exact Or.inl ⟨rest, hmem⟩
        · rcases List.mem_cons.mp hm with heq | hmem
          · exact absurd heq (by simp)
          · exact Or.inr ⟨b, rest, hmem⟩
      obtain ⟨r, hr⟩ := ih h'
      exact ⟨r, by simpa [filterReject] using hr⟩
    rcases f with _ | ⟨b2, rest2⟩
    · have h' : (∃ rest, y :: x :: rest ∈ fs) ∨ (∃ b rest, x :: b :: rest ∈ fs) := by
        rcases h with ⟨rest, hm⟩ | ⟨b, rest, hm⟩
        · rcases List.mem_cons.mp hm with heq | hmem
          · exact absurd heq (by simp)
          · exact Or.inl ⟨rest, hmem⟩
        · rcases List.mem_cons.mp hm with heq | hmem
          · exact absurd heq (by simp)
          · exact Or.inr ⟨b, rest, hmem⟩
      obtain ⟨r, hr⟩ := ih h'
      exact ⟨r, by simpa [filterReject] using hr⟩
    · by_cases h1 : a = y ∧ b2 = x
      · exact ⟨.cycle, by simp [filterReject, h1]⟩
      by_cases h2 : a = x
      · subst h2
        exact ⟨.dup b2, by simp [filterReject, h1]⟩
      have h' : (∃ rest, y :: x :: rest ∈ fs) ∨ (∃ b rest, x :: b :: rest ∈ fs) := by
        rcases h with ⟨rest, hm⟩ | ⟨b, rest, hm⟩
        · rcases List.mem_cons.mp hm with heq | hmem
          · injection heq with e1 e2
            injection e2 with e2 _
            exact absurd ⟨e1.symm, e2.symm⟩ h1
          · exact Or.inl ⟨rest, hmem⟩
        · rcases List.mem_cons.mp hm with heq | hmem
          · injection heq with e1 _
            exact absurd e1.symm h2
          · exact Or.inr ⟨b, rest, hmem⟩
      obtain ⟨r, hr⟩ := ih h'
      exact ⟨r, by simpa [filterReject, h1, h2] using hr⟩

/-- C5: confirmed.  Adding a WordFilter `(x, y)` via the `add filter`
command when the reverse filter `(y, x)` exists, or when some existing
filter already has source word `x`, is rejected: the filter list is
unchanged and the config is not re-persisted; the reply is the cycle
error when only the reverse pair is present and a duplicate error when
only a duplicate source is present (with both present, list order picks
one of the two rejections).  Without either, the filter is appended and
the config persisted. -/
theorem c5_add_filter_rejects_cycle_and_duplicate
    (filters : List (List String)) (x y : String) :
    ((∃ rest, y :: x :: rest ∈ filters) →
      (add_filter filters x y).filters = filters ∧
      (add_filter filters x y).persisted = false) ∧
    ((∃ b rest, x :: b :: rest ∈ filters) →
      (add_filter filters x y).filters = filters ∧
      (add_filter filters x y).persisted = false) ∧
    ((∃ rest, y :: x :: rest ∈ filters) → (¬ ∃ b rest, x :: b :: rest ∈ filters) →
      (add_filter filters x y).reply = .cycle) ∧
    ((∃ b rest, x :: b :: rest ∈ filters) → (¬ ∃ rest, y :: x :: rest ∈ filters) →
      ∃ w, (add_filter filters x y).reply = .dup w) ∧
    ((¬ ∃ rest, y :: x :: rest ∈ filters) → (¬ ∃ b rest, x :: b :: rest ∈ filters) →
      add_filter filters x y = ⟨filters ++ [[x, y]], true, .added⟩) := by
  refine ⟨fun h => ?_, fun h => ?_, fun h1 h2 => ?_, fun h1 h2 => ?_, fun h1 h2 => ?_⟩
  · obtain ⟨r, hr⟩ := filterReject_ne_none x y filters (Or.inl h)
    simp [add_filter, hr]
  · obtain ⟨r, hr⟩ := filterReject_ne_none x y filters (Or.inr h)
    simp [add_filter, hr]
  · have hr := filterReject_eq_cycle x y filters h2 h1
    simp [add_filter, hr]
  · obtain ⟨w, hw⟩ := filterReject_eq_dup x y filters h2 h1
    exact ⟨w, by simp [add_filter, hw]⟩
  · have hn := filterReject_eq_none x y filters h1 h2
    have hmem : [x, y] ∉ filters := fun hm => h2 ⟨y, [], hm⟩
    simp [add_filter, hn, hmem]

/-- Witness for C5: with the filter `["b", "a"]` present, adding the
filter `"a" → "b"` is rejected as a cycle and the list is unchanged. -/
theorem c5_witness :
    (add_filter [["b", "a"]] "a" "b").filters = [["b", "a"]] ∧
    (add_filter [["b", "a"]] "a" "b").persisted = false ∧
    (add_filter [["b", "a"]] "a" "b").reply = .cycle := by
  have hcyc : ∃ rest, "b" :: "a" :: rest ∈ ([["b", "a"]] : List (List String)) :=
    ⟨[], by simp⟩
  have hdup : ¬ ∃ b rest, "a" :: b :: rest ∈ ([["b", "a"]] : List (List String)) := by
    rintro ⟨b, rest, hm⟩
    rw [List.mem_singleton] at hm
    injection hm with hab _
    exact absurd hab (by decide)
  have h := c5_add_filter_rejects_cycle_and_duplicate [["b", "a"]] "a" "b"
  exact ⟨(h.1 hcyc).1, (h.1 hcyc).2, h.2.2.1 hcyc hdup⟩

/-- The `sign text` pattern captures exactly the appended tail when that
tail is non-empty and newline-free. -/
theorem matchSignText_concat (t : String) (h1 : t.toList ≠ [])
    (h2 : t.toList.all (fun c => c != '\n') = true) :
    matchSignText ("sign text " ++ t) = some t := by
  obtain ⟨d⟩ := t
  have hd : ("sign text " ++ String.mk d).toList =
      's' :: ("ign text ".toList ++ d) := rfl
  rw [matchSignText, hd]
  have htake : ("ign text ".toList ++ d).take 9 = "ign text ".toList :=
    List.take_left' rfl
  have hdrop : ("ign text ".toList ++ d).drop 9 = d :=
    List.drop_left' rfl
  have hne : d.isEmpty = false := by
    cases d with
    | nil => exact absurd rfl h1
    | cons c cs => rfl
  have hnl : '\n' ∉ d := by
    intro hmem
    have hx := List.all_eq_true.mp h2 _ hmem
    simp at hx
  simp only [htake, hdrop, hne, h2]
  simp [hnl]

/-- C10: confirmed.  Every settings toggle command mutates only its own
field of the config and persists: `on` / `off` change only `bot_enabled`,
`filters on` / `filters off` only `filter_words`, `sign on` / `sign off`
only `add_signature`, and `sign text t` only `signature`; the record
update leaves the entity list, the filter list, the api credentials, the
sudo list and every untouched toggle exactly as before. -/
theorem c10_settings_touch_only_their_field (cfg : BotConfig) (t : String)
    (h1 : t.toList ≠ []) (h2 : t.toList.all (fun c => c != '\n') = true) :
    change_bot_status cfg "on" =
      ⟨{cfg with bot_enabled := true}, true, some .botOn⟩ ∧
    change_bot_status cfg "off" =
      ⟨{cfg with bot_enabled := false}, true, some .botOff⟩ ∧
    change_filters_status cfg "filters on" =
      ⟨{cfg with filter_words := true}, true, some .filtersOn⟩ ∧
    change_filters_status cfg "filters off" =
      ⟨{cfg with filter_words := false}, true, some .filtersOff⟩ ∧
    change_signature_status cfg "sign on" =
      ⟨{cfg with add_signature := true}, true, some .signOn⟩ ∧
    change_signature_status cfg "sign off" =
      ⟨{cfg with add_signature := false}, true, some .signOff⟩ ∧
    change_signature_text cfg ("sign text " ++ t) =
      ⟨{cfg with signature := t}, true, some (.signatureSet t)⟩ := by
  refine ⟨rfl, rfl, rfl, rfl, rfl, rfl, ?_⟩
  rw [change_signature_text, matchSignText_concat t h1 h2]

/-- Witness for C10 at a concrete config and signature text. -/
theorem c10_witness :
    change_signature_text ⟨1, "h", true, [], true, false, "", [], []⟩ "sign text sig" =
      ⟨⟨1, "h", true, [], true, false, "sig", [], []⟩, true,
        some (.signatureSet "sig")⟩ := by
  have h := (c10_settings_touch_only_their_field
    ⟨1, "h", true, [], true, false, "", [], []⟩ "sig" (by decide) (by decide)).2.2.2.2.2.2
  exact h
